import Mathlib

/-!
Verification of the `grade_cpp_practice` exercise grader
(`src/grademe_version1.py` and `src/grademe_version6.py`).

Text is modeled as `List Char`.  Python's `str.strip` / `str.lower` /
`str.upper` / `str.splitlines` are embedded over that representation;
the whitespace and line-boundary character classes below list exactly the
characters Python's `str.isspace` and `str.splitlines` recognize
(for `lower`/`upper`/`isdigit` the model covers the ASCII repertoire the
program's commands are drawn from).
-/

namespace Grademe

/-- Characters that Python's `str.splitlines` treats as a line boundary
(CRLF is additionally consumed as a single boundary). -/
def isLineBreak (c : Char) : Bool :=
  c = '\n' || c = '\x0b' || c = '\x0c' || c = '\r' || c = '\x1c' || c = '\x1d' ||
  c = '\x1e' || c = '\u0085' || c = '\u2028' || c = '\u2029'

/-- Characters stripped by Python's default `str.strip` (`str.isspace`). -/
def isPyWS (c : Char) : Bool :=
  isLineBreak c || c = ' ' || c = '\t' || c = '\x1f' || c = '\u00a0' ||
  c = '\u1680' || (0x2000 ≤ c.toNat && c.toNat ≤ 0x200a) || c = '\u202f' ||
  c = '\u205f' || c = '\u3000'

/-- Python `str.lstrip()` on a list of characters. -/
def lstrip (t : List Char) : List Char := t.dropWhile isPyWS

/-- Python `str.rstrip()` on a list of characters. -/
def rstrip (t : List Char) : List Char := (t.reverse.dropWhile isPyWS).reverse

/-- Python `str.strip()` on a list of characters. -/
def pyStrip (t : List Char) : List Char := rstrip (lstrip t)

/-- State of the left-to-right `splitlines` scanner: completed lines,
the currently open line (`none` when no line is open), and whether the
previous character was a carriage return (so a following `\n` is absorbed
as part of a single CRLF boundary). -/
structure SplitSt where
  acc : List (List Char)
  cur : Option (List Char)
  lastCR : Bool
deriving DecidableEq, Repr

/-- One character step of the `splitlines` scanner. -/
def splitStep (st : SplitSt) (c : Char) : SplitSt :=
  if c = '\n' then
    if st.lastCR then ⟨st.acc, st.cur, false⟩
    else ⟨st.acc ++ [st.cur.getD []], none, false⟩
  else if isLineBreak c then
    ⟨st.acc ++ [st.cur.getD []], none, c = '\r'⟩
  else
    ⟨st.acc, some (st.cur.getD [] ++ [c]), false⟩

/-- Close the scanner: a still-open line becomes the final line. -/
def splitFinish (st : SplitSt) : List (List Char) :=
  match st.cur with
  | none => st.acc
  | some l => st.acc ++ [l]

/-- The initial scanner state. -/
def initSt : SplitSt := ⟨[], none, false⟩

/-- Python `str.splitlines()` on a list of characters. -/
def splitlines (t : List Char) : List (List Char) :=
  splitFinish (t.foldl splitStep initSt)

/-- `normalize_output` (identical in both source files):
`lines = text.strip().splitlines(); return [line.strip() for line in lines if line.strip()]`. -/
def normalize_output (text : List Char) : List (List Char) :=
  ((splitlines (pyStrip text)).map pyStrip).filter (fun l => !l.isEmpty)

/-- Modelled from the spec's words, for comparison with `normalize_output`:
"split input on line boundaries, strip leading/trailing whitespace from each
line, drop lines that become empty after stripping, preserve the remaining
order" (no whole-text pre-strip). -/
def normalizeSpec (text : List Char) : List (List Char) :=
  ((splitlines text).map pyStrip).filter (fun l => !l.isEmpty)

/-- Strip each line and drop the ones that strip to empty (the common
tail of `normalize_output` and `normalizeSpec`). -/
def normLines (ls : List (List Char)) : List (List Char) :=
  (ls.map pyStrip).filter (fun l => !l.isEmpty)

/-- A list of whitespace-only characters. -/
def WSOnly (w : List Char) : Prop := ∀ c ∈ w, isPyWS c = true

/-- The currently open line of a scanner state, as a plain list. -/
def curPart (st : SplitSt) : List Char := st.cur.getD []

/-- Two scanner states that close to the same normalized lines: equal
normalized completed lines, open lines differing only by a leading
whitespace run, and equal CR flags unless both open lines are closed. -/
def StR (s1 s2 : SplitSt) : Prop :=
  normLines s1.acc = normLines s2.acc ∧
  (∃ w, WSOnly w ∧ curPart s1 = w ++ curPart s2) ∧
  (s1.lastCR = s2.lastCR ∨ (s1.cur = none ∧ s2.cur = none))

/-- A list of characters none of which is a line boundary. -/
def NoBreak (l : List Char) : Prop := ∀ c ∈ l, isLineBreak c = false

/-- Scanner invariant: no completed or open line contains a line boundary. -/
def NBInv (st : SplitSt) : Prop :=
  (∀ l ∈ st.acc, NoBreak l) ∧ NoBreak (curPart st)

/-- Rejoin a line sequence into a single text with newline separators
(Python `"\n".join`). -/
def joinNL : List (List Char) → List Char
  | [] => []
  | [l] => l
  | l :: ls => l ++ '\n' :: joinNL ls

/-- `needle` occurs contiguously inside `hay`. -/
def OccursIn (needle hay : List Char) : Prop := ∃ p q, hay = p ++ (needle ++ q)

/-- Python `str.lower` on the ASCII repertoire. -/
def pyLower (t : List Char) : List Char := t.map Char.toLower

/-- Python `str.upper` on the ASCII repertoire. -/
def pyUpper (t : List Char) : List Char := t.map Char.toUpper

/-- Python `str.isdigit` on the ASCII repertoire: nonempty and all digits. -/
def isDigits (t : List Char) : Bool := !t.isEmpty && t.all Char.isDigit

/-- Python `int(...)` on a string of ASCII decimal digits. -/
def parseNat (t : List Char) : Nat := t.foldl (fun n c => 10 * n + (c.toNat - 48)) 0

/-- Python `str.endswith`: the suffix test used to recognize solution files. -/
def endsWith (l suf : List Char) : Bool :=
  decide (l.reverse.take suf.length = suf.reverse)

/-- Captured result of running a subprocess with `capture_output=True`:
its standard output, standard error, and exit code. -/
structure RunResult where
  stdout : List Char
  stderr : List Char
  returncode : Int
deriving DecidableEq, Repr

/-- A persisted trace file: its name and its content. -/
structure TraceFile where
  name : List Char
  content : List Char
deriving DecidableEq, Repr

/-- Verdict of comparing normalized actual output against normalized
expected output; the mismatch verdict carries both reported sequences. -/
inductive Verdict where
  | matched
  | mismatched (expected actual : List (List Char))
deriving DecidableEq, Repr

/-- Everything `run_and_check` reports: the displayed (stripped) program
output, the displayed runtime stderr when nonempty, the verdict when an
expected-output file exists, and the mismatch trace when one is written. -/
structure CheckResult where
  shownOutput : List Char
  shownStderr : Option (List Char)
  verdict : Option Verdict
  trace : Option TraceFile
deriving DecidableEq, Repr

/-- Content the mismatch branch of `run_and_check` writes to its trace file. -/
def mismatchTraceContent (ne na : List (List Char)) : List Char :=
  ("❌ Output mismatch!\n--- Expected ---\n".data) ++ joinNL ne ++
  ("\n--- Got ---\n".data) ++ joinNL na ++ ("\n".data)

/-- `run_and_check(exe_file, expected_output_file, subject)` (identical in
both source files).  Execution of the built program is modeled by the given
`RunResult`; `expectedFile = none` models a missing expected-output file and
`some text` a file with that content.  The function shows the stripped
stdout (or a placeholder) and stderr when nonempty; when the expected file
exists it compares normalized outputs, and on mismatch writes the trace file
`{subject}_trace_{timestamp}.txt` holding both normalized sequences. -/
def run_and_check (res : RunResult) (expectedFile : Option (List Char))
    (subject : List Char) (timestamp : List Char) : CheckResult :=
  let actual_output := pyStrip res.stdout
  let shown := if actual_output.isEmpty then ("[no output]".data) else actual_output
  let shownErr := if res.stderr.isEmpty then none else some res.stderr
  match expectedFile with
  | none => ⟨shown, shownErr, none, none⟩
  | some expRaw =>
    let expected_output := pyStrip expRaw
    let norm_actual := normalize_output actual_output
    let norm_expected := normalize_output expected_output
    if norm_actual = norm_expected then ⟨shown, shownErr, some .matched, none⟩
    else
      ⟨shown, shownErr, some (.mismatched norm_expected norm_actual),
        some ⟨subject ++ ("_trace_".data) ++ timestamp ++ (".txt".data),
          mismatchTraceContent norm_expected norm_actual⟩⟩

/-- Abstract inputs of one `test_subject` run: the exercise directories of
the level, the file names staged in `./solutions`, the toolchain's exit
code and captured output, the captured execution of the built program, and
the content of the exercise's `output/output.txt` when it exists. -/
structure PipelineEnv where
  exercises : List (List Char)
  stagedFiles : List (List Char)
  compileExit : Int
  compileStdout : List Char
  compileStderr : List Char
  run : RunResult
  expected : Option (List Char)
deriving DecidableEq, Repr

/-- How a `test_subject` run ended. -/
inductive Outcome where
  | noExercises
  | solutionCountError
  | compileFailed
  | ran
deriving DecidableEq, Repr

/-- Outcomes the spec's error taxonomy classes as configuration errors
(zero/multiple solution files, or no exercises in a level). -/
def isConfigError : Outcome → Bool
  | .noExercises => true
  | .solutionCountError => true
  | .compileFailed => false
  | .ran => false

/-- Observable record of one `test_subject` run: its outcome, whether the
compiler was invoked, whether the built program was executed, whether a
build artifact (`program.out`) was produced, the report of `run_and_check`
when reached, and every trace file written during the run. -/
structure PipelineRun where
  outcome : Outcome
  compilerInvoked : Bool
  executed : Bool
  artifactBuilt : Bool
  check : Option CheckResult
  traces : List TraceFile
deriving DecidableEq, Repr

/-- The solution-file scan of `test_subject`:
`[f for f in os.listdir(SOLUTIONS_DIR) if f.endswith((".c", ".cpp"))]`. -/
def solution_files (files : List (List Char)) : List (List Char) :=
  files.filter (fun f => endsWith f (".c".data) || endsWith f (".cpp".data))

/-- Content of the compile-failure trace file. -/
def compileTraceContent (out err : List Char) : List Char :=
  ("--- Compiler stdout ---\n".data) ++ out ++
  ("\n--- Compiler stderr ---\n".data) ++ err

/-- The subject identifier `f"{level}_{exercise}"` for the picked exercise. -/
def subjectName (env : PipelineEnv) (level : List Char) (pick : Nat) : List Char :=
  level ++ ("_".data) ++ env.exercises.getD pick []

/-- Name of the compile-failure trace file,
`f"{level}_{exercise}_compile_{timestamp}.txt"`. -/
def compileTraceName (env : PipelineEnv) (level : List Char) (pick : Nat)
    (timestamp : List Char) : List Char :=
  level ++ ("_".data) ++ env.exercises.getD pick [] ++ ("_compile_".data) ++
    timestamp ++ (".txt".data)

/-- `test_subject(level)` (the logic is identical in both source files;
version 1 additionally prints the exercise description, which changes no
outcome).  `pick` models `random.choice` over the exercise directories.
The toolchain invocation (gcc for `.c`, else c++) is abstracted by the
environment's captured exit code and output; a zero exit leads to
`run_and_check`, a non-zero exit writes the compile trace
`{level}_{exercise}_compile_{timestamp}.txt` and does not execute. -/
def test_subject (env : PipelineEnv) (level : List Char) (pick : Nat)
    (timestamp : List Char) : PipelineRun :=
  if env.exercises.isEmpty then
    ⟨.noExercises, false, false, false, none, []⟩
  else if (solution_files env.stagedFiles).length ≠ 1 then
    ⟨.solutionCountError, false, false, false, none, []⟩
  else if env.compileExit = 0 then
    ⟨.ran, true, true, true,
      some (run_and_check env.run env.expected (subjectName env level pick) timestamp),
      (run_and_check env.run env.expected (subjectName env level pick) timestamp).trace.toList⟩
  else
    ⟨.compileFailed, true, false, false, none,
      [⟨compileTraceName env level pick timestamp,
        compileTraceContent env.compileStdout env.compileStderr⟩]⟩

/-- A directory entry: a name plus whether it is a regular file (as
opposed to a subdirectory). -/
structure Entry where
  name : List Char
  isFile : Bool
deriving DecidableEq, Repr

/-- `clear_folder(folder_path)` (identical in both source files): `none`
models a folder that does not exist (`os.path.exists` fails, no-op);
otherwise every entry that is a regular file is removed and the folder
itself, with its non-file entries, remains. -/
def clear_folder (dir : Option (List Entry)) : Option (List Entry) :=
  match dir with
  | none => none
  | some entries => some (entries.filter (fun e => !e.isFile))

/-- Session-controller state: no level selected yet, a level selected, or
the process ended. -/
inductive SState where
  | choosing
  | selected (level : List Char)
  | terminated
deriving DecidableEq, Repr

/-- The three workspace directories. -/
inductive WDir where
  | solutions
  | traces
  | build
deriving DecidableEq, Repr

/-- Observable side effect of one command-loop step. -/
inductive Action where
  | clearFolder (d : WDir)
  | runPipeline (level : List Char)
deriving DecidableEq, Repr

/-- The three `clear_folder` calls performed on exit (and, in version 1,
on the NEW command), in source order. -/
def clearAll : List Action :=
  [.clearFolder .solutions, .clearFolder .traces, .clearFolder .build]

/-- One step of the version-6 command loop on one line of user input.
In the `choosing` state this is the level-selection prompt (EXIT, a level
index, or a level name, compared after strip-and-lowercase; a fresh
selection immediately runs one exercise); in the `selected` state it is the
action prompt (empty or `new` to run, `newnew` to change level, `exit` to
quit).  The terminated state reads no further input. -/
def v6Step (levels : List (List Char)) (s : SState) (raw : List Char) :
    SState × List Action :=
  match s with
  | .terminated => (.terminated, [])
  | .choosing =>
    let choice := pyLower (pyStrip raw)
    if pyUpper choice = ("EXIT".data) then
      (.terminated, clearAll)
    else if isDigits choice && decide (1 ≤ parseNat choice) &&
        decide (parseNat choice ≤ levels.length) then
      let lvl := levels.getD (parseNat choice - 1) []
      (.selected lvl, [.runPipeline lvl])
    else if (levels.map pyLower).contains choice then
      let lvl := (levels.find? (fun l => pyLower l == choice)).getD []
      (.selected lvl, [.runPipeline lvl])
    else
      (.choosing, [])
  | .selected lvl =>
    let u := pyLower (pyStrip raw)
    if u = [] then (.selected lvl, [.runPipeline lvl])
    else if u = ("new".data) then (.selected lvl, [.runPipeline lvl])
    else if u = ("newnew".data) then (.choosing, [])
    else if u = ("exit".data) then (.terminated, clearAll)
    else (.selected lvl, [])

/-- One step of the version-1 command loop on one line of user input.
Version 1 picks a difficulty at random whenever none is selected, without
reading input, so commands are only read in the `selected` state: EXIT
quits after clearing, NEW clears and returns to selection, and any other
input (stripped, case-insensitive) runs `test_subject`. -/
def v1Step (s : SState) (raw : List Char) : SState × List Action :=
  match s with
  | .terminated => (.terminated, [])
  | .choosing => (.choosing, [])
  | .selected lvl =>
    let u := pyStrip raw
    if pyUpper u = ("EXIT".data) then (.terminated, clearAll)
    else if pyUpper u = ("NEW".data) then (.choosing, clearAll)
    else (.selected lvl, [.runPipeline lvl])

/-- Input that matches none of the version-6 command forms for the given
state (the `else` branches of the command loop).  In the terminated state
no further input is read, so every input counts as unrecognized. -/
def v6Unrecognized (levels : List (List Char)) (s : SState) (raw : List Char) :
    Bool :=
  match s with
  | .terminated => true
  | .choosing =>
    let choice := pyLower (pyStrip raw)
    !(pyUpper choice == ("EXIT".data)) &&
    !(isDigits choice && decide (1 ≤ parseNat choice) &&
        decide (parseNat choice ≤ levels.length)) &&
    !((levels.map pyLower).contains choice)
  | .selected _ =>
    let u := pyLower (pyStrip raw)
    !(u == []) && !(u == ("new".data)) && !(u == ("newnew".data)) &&
    !(u == ("exit".data))

/-- A concrete pipeline environment whose candidate output mismatches the
expected output (used to instantiate hypotheses of pipeline theorems). -/
def envMismatch : PipelineEnv :=
  ⟨[("3".data)], [("main.c".data)], 0, [], [],
    ⟨("Hello\nWorld".data), ("warn".data), 0⟩, some ("World\nHello".data)⟩

/-- A concrete pipeline environment whose toolchain fails. -/
def envCompileFail : PipelineEnv :=
  ⟨[("2".data)], [("main.cpp".data)], 1, ("out".data), ("err: x".data),
    ⟨[], [], 0⟩, some ("y".data)⟩

/-- A concrete pipeline environment with no expected-output file. -/
def envNoExpected : PipelineEnv :=
  ⟨[("1".data)], [("main.c".data)], 0, [], [],
    ⟨("hi".data), [], 0⟩, none⟩

/-- A concrete pipeline environment with no recognized solution file. -/
def envNoSolution : PipelineEnv :=
  ⟨[("1".data)], [("notes.txt".data)], 0, [], [], ⟨[], [], 0⟩, none⟩

/-- A concrete captured run with clean stderr and exit code 0. -/
def runQuiet : RunResult := ⟨("ok".data), [], 0⟩

/-- A concrete captured run with the same stdout as `runQuiet` but
nonempty stderr and a nonzero exit code. -/
def runNoisy : RunResult := ⟨("ok".data), ("late warning".data), 7⟩

theorem isPyWS_of_isLineBreak {c : Char} (h : isLineBreak c = true) :
    isPyWS c = true := by
  simp [isPyWS, h]

theorem lstrip_cons_ws {c : Char} (h : isPyWS c = true) (l : List Char) :
    lstrip (c :: l) = lstrip l := by
  simp [lstrip, List.dropWhile_cons, h]

theorem lstrip_ws_append {w : List Char} (hw : WSOnly w) (l : List Char) :
    lstrip (w ++ l) = lstrip l := by
  induction w with
  | nil => rfl
  | cons c w ih =>
      rw [List.cons_append, lstrip_cons_ws (hw c (by simp))]
      exact ih fun d hd => hw d (by simp [hd])

theorem lstrip_eq_nil {w : List Char} (hw : WSOnly w) : lstrip w = [] := by
  have := lstrip_ws_append hw []
  simpa using this

theorem rstrip_append_ws {w : List Char} (hw : WSOnly w) (l : List Char) :
    rstrip (l ++ w) = rstrip l := by
  have hw' : WSOnly w.reverse := fun c hc => hw c (List.mem_reverse.mp hc)
  have h2 := lstrip_ws_append hw' l.reverse
  simp only [lstrip] at h2
  show ((l ++ w).reverse.dropWhile isPyWS).reverse = _
  rw [List.reverse_append, h2]
  rfl

theorem rstrip_nil : rstrip [] = [] := rfl

theorem pyStrip_nil : pyStrip [] = [] := rfl

theorem pyStrip_cons_ws {c : Char} (h : isPyWS c = true) (l : List Char) :
    pyStrip (c :: l) = pyStrip l := by
  simp [pyStrip, lstrip_cons_ws h]

theorem pyStrip_eq_nil {w : List Char} (hw : WSOnly w) : pyStrip w = [] := by
  rw [pyStrip, lstrip_eq_nil hw, rstrip_nil]

theorem pyStrip_ws_append {w : List Char} (hw : WSOnly w) (l : List Char) :
    pyStrip (w ++ l) = pyStrip l := by
  simp [pyStrip, lstrip_ws_append hw]

theorem pyStrip_append_ws {w : List Char} (hw : WSOnly w) (l : List Char) :
    pyStrip (l ++ w) = pyStrip l := by
  induction l with
  | nil => rw [List.nil_append, pyStrip_eq_nil hw, pyStrip_nil]
  | cons c l ih =>
      by_cases h : isPyWS c = true
      · rw [List.cons_append, pyStrip_cons_ws h, ih, pyStrip_cons_ws h]
      · have hc : lstrip (c :: l) = c :: l := by
          simp [lstrip, List.dropWhile_cons, h]
        have hc2 : lstrip (c :: (l ++ w)) = c :: (l ++ w) := by
          simp [lstrip, List.dropWhile_cons, h]
        calc pyStrip (c :: l ++ w) = rstrip (c :: (l ++ w)) := by
              rw [List.cons_append, pyStrip, hc2]
          _ = rstrip ((c :: l) ++ w) := by rw [List.cons_append]
          _ = rstrip (c :: l) := rstrip_append_ws hw (c :: l)
          _ = pyStrip (c :: l) := by rw [pyStrip, hc]

theorem normLines_append (a b : List (List Char)) :
    normLines (a ++ b) = normLines a ++ normLines b := by
  simp [normLines, List.filter_append]

theorem normLines_singleton (l : List Char) :
    normLines [l] = if pyStrip l = [] then [] else [pyStrip l] := by
  by_cases h : pyStrip l = [] <;>
    simp [normLines, List.filter_cons, h, List.isEmpty_iff]

theorem normLines_snoc_nil (a : List (List Char)) {l : List Char}
    (h : pyStrip l = []) : normLines (a ++ [l]) = normLines a := by
  rw [normLines_append, normLines_singleton, if_pos h, List.append_nil]

theorem WSOnly_nil : WSOnly [] := fun c hc => absurd hc (List.not_mem_nil c)

theorem StR_step {s1 s2 : SplitSt} (h : StR s1 s2) (c : Char) :
    StR (splitStep s1 c) (splitStep s2 c) := by
  obtain ⟨hacc, ⟨w, hw, hcur⟩, hcr⟩ := h
  have hcur' : s1.cur.getD [] = w ++ s2.cur.getD [] := hcur
  have hclose : normLines (s1.acc ++ [s1.cur.getD []]) =
      normLines (s2.acc ++ [s2.cur.getD []]) := by
    rw [normLines_append, normLines_append, hacc, normLines_singleton,
      normLines_singleton, hcur', pyStrip_ws_append hw]
  by_cases hn : c = '\n'
  · subst hn
    by_cases hb1 : s1.lastCR = true <;> by_cases hb2 : s2.lastCR = true
    · -- both states absorb the LF after a CR
      have e1 : splitStep s1 '\n' = ⟨s1.acc, s1.cur, false⟩ := by simp [splitStep, hb1]
      have e2 : splitStep s2 '\n' = ⟨s2.acc, s2.cur, false⟩ := by simp [splitStep, hb2]
      rw [e1, e2]
      exact ⟨hacc, ⟨w, hw, hcur⟩, Or.inl rfl⟩
    · -- CR flags differ, hence both open lines are closed
      have hb2' : s2.lastCR = false := Bool.not_eq_true _ ▸ hb2
      rcases hcr with hcr | ⟨hc1, hc2⟩
      · rw [hb1, hb2'] at hcr; exact absurd hcr (by simp)
      · have e1 : splitStep s1 '\n' = ⟨s1.acc, none, false⟩ := by
          simp [splitStep, hb1, hc1]
        have e2 : splitStep s2 '\n' = ⟨s2.acc ++ [[]], none, false⟩ := by
          simp [splitStep, hb2', hc2]
        rw [e1, e2]
        refine ⟨?_, ⟨[], WSOnly_nil, rfl⟩, Or.inl rfl⟩
        show normLines s1.acc = normLines (s2.acc ++ [[]])
        rw [normLines_snoc_nil _ pyStrip_nil, hacc]
    · have hb1' : s1.lastCR = false := Bool.not_eq_true _ ▸ hb1
      rcases hcr with hcr | ⟨hc1, hc2⟩
      · rw [hb1', hb2] at hcr; exact absurd hcr (by simp)
      · have e1 : splitStep s1 '\n' = ⟨s1.acc ++ [[]], none, false⟩ := by
          simp [splitStep, hb1', hc1]
        have e2 : splitStep s2 '\n' = ⟨s2.acc, none, false⟩ := by
          simp [splitStep, hb2, hc2]
        rw [e1, e2]
        refine ⟨?_, ⟨[], WSOnly_nil, rfl⟩, Or.inl rfl⟩
        show normLines (s1.acc ++ [[]]) = normLines s2.acc
        rw [normLines_snoc_nil _ pyStrip_nil, hacc]
    · -- both close the open line
      have hb1' : s1.lastCR = false := Bool.not_eq_true _ ▸ hb1
      have hb2' : s2.lastCR = false := Bool.not_eq_true _ ▸ hb2
      have e1 : splitStep s1 '\n' = ⟨s1.acc ++ [s1.cur.getD []], none, false⟩ := by
        simp [splitStep, hb1']
      have e2 : splitStep s2 '\n' = ⟨s2.acc ++ [s2.cur.getD []], none, false⟩ := by
        simp [splitStep, hb2']
      rw [e1, e2]
      exact ⟨hclose, ⟨[], WSOnly_nil, rfl⟩, Or.inl rfl⟩
  · by_cases hb : isLineBreak c = true
    · have e1 : splitStep s1 c = ⟨s1.acc ++ [s1.cur.getD []], none, c = '\r'⟩ := by
        simp [splitStep, hn, hb]
      have e2 : splitStep s2 c = ⟨s2.acc ++ [s2.cur.getD []], none, c = '\r'⟩ := by
        simp [splitStep, hn, hb]
      rw [e1, e2]
      exact ⟨hclose, ⟨[], WSOnly_nil, rfl⟩, Or.inl rfl⟩
    · have e1 : splitStep s1 c = ⟨s1.acc, some (s1.cur.getD [] ++ [c]), false⟩ := by
        simp [splitStep, hn, hb]
      have e2 : splitStep s2 c = ⟨s2.acc, some (s2.cur.getD [] ++ [c]), false⟩ := by
        simp [splitStep, hn, hb]
      rw [e1, e2]
      refine ⟨hacc, ⟨w, hw, ?_⟩, Or.inl rfl⟩
      show s1.cur.getD [] ++ [c] = w ++ (s2.cur.getD [] ++ [c])
      rw [hcur', List.append_assoc]

theorem StR_foldl {s1 s2 : SplitSt} (h : StR s1 s2) (t : List Char) :
    StR (t.foldl splitStep s1) (t.foldl splitStep s2) := by
  induction t generalizing s1 s2 with
  | nil => exact h
  | cons c t ih => exact ih (StR_step h c)

theorem normLines_splitFinish (s : SplitSt) :
    normLines (splitFinish s) = normLines (s.acc ++ [curPart s]) := by
  rcases hc : s.cur with _ | l
  · rw [splitFinish]
    rw [hc]
    have : curPart s = [] := by simp [curPart, hc]
    rw [this, normLines_snoc_nil _ pyStrip_nil]
  · rw [splitFinish]
    rw [hc]
    have : curPart s = l := by simp [curPart, hc]
    rw [this]

theorem StR_splitFinish {s1 s2 : SplitSt} (h : StR s1 s2) :
    normLines (splitFinish s1) = normLines (splitFinish s2) := by
  obtain ⟨hacc, ⟨w, hw, hcur⟩, -⟩ := h
  rw [normLines_splitFinish, normLines_splitFinish, normLines_append,
    normLines_append, hacc, normLines_singleton, normLines_singleton, hcur,
    pyStrip_ws_append hw]

theorem StR_initSt_ws {c : Char} (h : isPyWS c = true) :
    StR (splitStep initSt c) initSt := by
  by_cases hn : c = '\n'
  · subst hn
    have e : splitStep initSt '\n' = ⟨[[]], none, false⟩ := by
      simp [splitStep, initSt]
    rw [e]
    refine ⟨?_, ⟨[], WSOnly_nil, rfl⟩, Or.inr ⟨rfl, rfl⟩⟩
    show normLines ([] ++ [[]]) = normLines initSt.acc
    rw [normLines_snoc_nil _ pyStrip_nil]
    rfl
  · by_cases hb : isLineBreak c = true
    · have e : splitStep initSt c = ⟨[[]], none, c = '\r'⟩ := by
        simp [splitStep, initSt, hn, hb]
      rw [e]
      refine ⟨?_, ⟨[], WSOnly_nil, rfl⟩, Or.inr ⟨rfl, rfl⟩⟩
      show normLines ([] ++ [[]]) = normLines initSt.acc
      rw [normLines_snoc_nil _ pyStrip_nil]
      rfl
    · have e : splitStep initSt c = ⟨[], some [c], false⟩ := by
        simp [splitStep, initSt, hn, hb]
      rw [e]
      refine ⟨rfl, ⟨[c], ?_, rfl⟩, Or.inl rfl⟩
      intro d hd
      rw [List.mem_singleton.mp hd]
      exact h

theorem normLines_splitlines_cons_ws {c : Char} (h : isPyWS c = true)
    (t : List Char) :
    normLines (splitlines (c :: t)) = normLines (splitlines t) := by
  show normLines (splitFinish ((c :: t).foldl splitStep initSt)) =
    normLines (splitFinish (t.foldl splitStep initSt))
  rw [List.foldl_cons]
  exact StR_splitFinish (StR_foldl (StR_initSt_ws h) t)

theorem normLines_splitFinish_step_ws {c : Char} (h : isPyWS c = true)
    (st : SplitSt) :
    normLines (splitFinish (splitStep st c)) = normLines (splitFinish st) := by
  by_cases hn : c = '\n'
  · subst hn
    by_cases hb : st.lastCR = true
    · have e : splitStep st '\n' = ⟨st.acc, st.cur, false⟩ := by simp [splitStep, hb]
      rw [e, normLines_splitFinish, normLines_splitFinish]
      rfl
    · have hb' : st.lastCR = false := Bool.not_eq_true _ ▸ hb
      have e : splitStep st '\n' = ⟨st.acc ++ [st.cur.getD []], none, false⟩ := by
        simp [splitStep, hb']
      rw [e, normLines_splitFinish, normLines_splitFinish]
      show normLines (st.acc ++ [st.cur.getD []] ++ [curPart ⟨st.acc ++ [st.cur.getD []], none, false⟩]) = _
      rw [show curPart ⟨st.acc ++ [st.cur.getD []], none, false⟩ = [] from rfl,
        normLines_snoc_nil _ pyStrip_nil]
      rfl
  · by_cases hb : isLineBreak c = true
    · have e : splitStep st c = ⟨st.acc ++ [st.cur.getD []], none, c = '\r'⟩ := by
        simp [splitStep, hn, hb]
      rw [e, normLines_splitFinish, normLines_splitFinish]
      show normLines (st.acc ++ [st.cur.getD []] ++ [curPart ⟨st.acc ++ [st.cur.getD []], none, c = '\r'⟩]) = _
      rw [show curPart ⟨st.acc ++ [st.cur.getD []], none, c = '\r'⟩ = [] from rfl,
        normLines_snoc_nil _ pyStrip_nil]
      rfl
    · have e : splitStep st c = ⟨st.acc, some (st.cur.getD [] ++ [c]), false⟩ := by
        simp [splitStep, hn, hb]
      rw [e, normLines_splitFinish, normLines_splitFinish]
      show normLines (st.acc ++ [curPart ⟨st.acc, some (st.cur.getD [] ++ [c]), false⟩]) = _
      rw [show curPart ⟨st.acc, some (st.cur.getD [] ++ [c]), false⟩ =
        st.cur.getD [] ++ [c] from rfl]
      rw [normLines_append, normLines_append, normLines_singleton, normLines_singleton]
      have hws : WSOnly [c] := by
        intro d hd; rw [List.mem_singleton.mp hd]; exact h
      rw [pyStrip_append_ws hws]
      rfl

theorem normLines_splitlines_append_ws {w : List Char} (hw : WSOnly w)
    (t : List Char) :
    normLines (splitlines (t ++ w)) = normLines (splitlines t) := by
  induction w generalizing t with
  | nil => rw [List.append_nil]
  | cons c w ih =>
      have hc : isPyWS c = true := hw c (by simp)
      have hw' : WSOnly w := fun d hd => hw d (by simp [hd])
      calc normLines (splitlines (t ++ c :: w))
          = normLines (splitlines ((t ++ [c]) ++ w)) := by
            rw [List.append_assoc, List.singleton_append]
        _ = normLines (splitlines (t ++ [c])) := ih hw' (t ++ [c])
        _ = normLines (splitlines t) := by
            show normLines (splitFinish ((t ++ [c]).foldl splitStep initSt)) = _
            rw [List.foldl_append]
            exact normLines_splitFinish_step_ws hc _

theorem rstrip_decomp (t : List Char) :
    ∃ w, WSOnly w ∧ t = rstrip t ++ w := by
  refine ⟨(t.reverse.takeWhile isPyWS).reverse, ?_, ?_⟩
  · intro c hc
    exact List.mem_takeWhile_imp (List.mem_reverse.mp hc)
  · conv_lhs => rw [← List.reverse_reverse t,
      ← List.takeWhile_append_dropWhile isPyWS t.reverse]
    rw [List.reverse_append]
    rfl

theorem normLines_splitlines_lstrip (t : List Char) :
    normLines (splitlines (lstrip t)) = normLines (splitlines t) := by
  induction t with
  | nil => rfl
  | cons c t ih =>
      by_cases h : isPyWS c = true
      · rw [lstrip_cons_ws h, ih, normLines_splitlines_cons_ws h]
      · rw [show lstrip (c :: t) = c :: t by simp [lstrip, List.dropWhile_cons, h]]

theorem normalizeSpec_pyStrip (t : List Char) :
    normalizeSpec (pyStrip t) = normalizeSpec t := by
  obtain ⟨w, hw, hdec⟩ := rstrip_decomp (lstrip t)
  show normLines (splitlines (pyStrip t)) = normLines (splitlines t)
  calc normLines (splitlines (rstrip (lstrip t)))
      = normLines (splitlines (rstrip (lstrip t) ++ w)) :=
        (normLines_splitlines_append_ws hw _).symm
    _ = normLines (splitlines (lstrip t)) := by rw [← hdec]
    _ = normLines (splitlines t) := normLines_splitlines_lstrip t

theorem normalize_output_eq_normalizeSpec (t : List Char) :
    normalize_output t = normalizeSpec t := by
  show normalizeSpec (pyStrip t) = normalizeSpec t
  exact normalizeSpec_pyStrip t

theorem normalize_output_pyStrip (t : List Char) :
    normalize_output (pyStrip t) = normalize_output t := by
  rw [normalize_output_eq_normalizeSpec, normalize_output_eq_normalizeSpec,
    normalizeSpec_pyStrip]

theorem lstrip_idem (l : List Char) : lstrip (lstrip l) = lstrip l := by
  induction l with
  | nil => rfl
  | cons c l ih =>
      by_cases h : isPyWS c = true
      · rw [lstrip_cons_ws h]; exact ih
      · have e : lstrip (c :: l) = c :: l := by simp [lstrip, List.dropWhile_cons, h]
        rw [e]
        exact e

theorem rstrip_idem (y : List Char) : rstrip (rstrip y) = rstrip y := by
  have h1 : (rstrip y).reverse = y.reverse.dropWhile isPyWS := by
    rw [rstrip, List.reverse_reverse]
  have h2 := lstrip_idem y.reverse
  simp only [lstrip] at h2
  show ((rstrip y).reverse.dropWhile isPyWS).reverse = _
  rw [h1, h2]
  rfl

theorem lstrip_cons_fix {c : Char} {x : List Char}
    (h : lstrip (c :: x) = c :: x) : isPyWS c = false := by
  by_cases h' : isPyWS c = true
  · rw [lstrip_cons_ws h'] at h
    have hlen := congrArg List.length h
    have hle : (List.dropWhile isPyWS x).length ≤ x.length :=
      (List.dropWhile_sublist isPyWS).length_le
    simp only [lstrip, List.length_cons] at hlen hle
    omega
  · exact Bool.not_eq_true _ ▸ h'

theorem lstrip_rstrip_fix {y : List Char} (hy : lstrip y = y) :
    lstrip (rstrip y) = rstrip y := by
  rcases hr : rstrip y with _ | ⟨c, r⟩
  · rfl
  · obtain ⟨w, -, hdec⟩ := rstrip_decomp y
    rw [hr] at hdec
    have hy' : lstrip (c :: (r ++ w)) = c :: (r ++ w) := by
      rw [← List.cons_append, ← hdec]; exact hy
    have hc := lstrip_cons_fix hy'
    simp [lstrip, List.dropWhile_cons, hc]

theorem pyStrip_idem (l : List Char) : pyStrip (pyStrip l) = pyStrip l := by
  have hfix : lstrip (lstrip l) = lstrip l := lstrip_idem l
  show rstrip (lstrip (rstrip (lstrip l))) = rstrip (lstrip l)
  rw [lstrip_rstrip_fix hfix, rstrip_idem]

theorem NoBreak_nil : NoBreak [] := fun c hc => absurd hc (List.not_mem_nil c)

theorem NBInv_step {st : SplitSt} (h : NBInv st) (c : Char) :
    NBInv (splitStep st c) := by
  obtain ⟨hacc, hcur⟩ := h
  have hmemclose : ∀ l ∈ st.acc ++ [st.cur.getD []], NoBreak l := by
    intro l hl
    rcases List.mem_append.mp hl with hl | hl
    · exact hacc l hl
    · rw [List.mem_singleton.mp hl]; exact hcur
  by_cases hn : c = '\n'
  · subst hn
    by_cases hb : st.lastCR = true
    · have e : splitStep st '\n' = ⟨st.acc, st.cur, false⟩ := by simp [splitStep, hb]
      rw [e]; exact ⟨hacc, hcur⟩
    · have hb' : st.lastCR = false := Bool.not_eq_true _ ▸ hb
      have e : splitStep st '\n' = ⟨st.acc ++ [st.cur.getD []], none, false⟩ := by
        simp [splitStep, hb']
      rw [e]; exact ⟨hmemclose, NoBreak_nil⟩
  · by_cases hb : isLineBreak c = true
    · have e : splitStep st c = ⟨st.acc ++ [st.cur.getD []], none, c = '\r'⟩ := by
        simp [splitStep, hn, hb]
      rw [e]; exact ⟨hmemclose, NoBreak_nil⟩
    · have e : splitStep st c = ⟨st.acc, some (st.cur.getD [] ++ [c]), false⟩ := by
        simp [splitStep, hn, hb]
      rw [e]
      refine ⟨hacc, ?_⟩
      intro d hd
      rcases List.mem_append.mp hd with hd | hd
      · exact hcur d hd
      · rw [List.mem_singleton.mp hd]
        exact Bool.not_eq_true _ ▸ hb

theorem NBInv_foldl {st : SplitSt} (h : NBInv st) (t : List Char) :
    NBInv (t.foldl splitStep st) := by
  induction t generalizing st with
  | nil => exact h
  | cons c t ih => exact ih (NBInv_step h c)

theorem splitlines_noBreak (t : List Char) :
    ∀ l ∈ splitlines t, NoBreak l := by
  have hinit : NBInv initSt := ⟨fun l hl => absurd hl (List.not_mem_nil l), NoBreak_nil⟩
  obtain ⟨hacc, hcur⟩ := NBInv_foldl hinit t
  intro l hl
  show NoBreak l
  rw [splitlines] at hl
  rcases hc : (t.foldl splitStep initSt).cur with _ | p
  · rw [splitFinish, hc] at hl
    exact hacc l hl
  · rw [splitFinish, hc] at hl
    rcases List.mem_append.mp hl with hl | hl
    · exact hacc l hl
    · rw [List.mem_singleton.mp hl]
      have : curPart (t.foldl splitStep initSt) = p := by simp [curPart, hc]
      exact this ▸ hcur

theorem mem_lstrip {c : Char} {l : List Char} (h : c ∈ lstrip l) : c ∈ l := by
  rw [← List.takeWhile_append_dropWhile isPyWS l]
  exact List.mem_append_right _ h

theorem mem_rstrip {c : Char} {l : List Char} (h : c ∈ rstrip l) : c ∈ l := by
  rw [rstrip, List.mem_reverse] at h
  exact List.mem_reverse.mp (mem_lstrip h)

theorem mem_pyStrip {c : Char} {l : List Char} (h : c ∈ pyStrip l) : c ∈ l :=
  mem_lstrip (mem_rstrip h)

theorem foldl_splitStep_noBreak_some {l : List Char} (hl : NoBreak l)
    (acc : List (List Char)) (p : List Char) :
    l.foldl splitStep ⟨acc, some p, false⟩ = ⟨acc, some (p ++ l), false⟩ := by
  induction l generalizing p with
  | nil => simp
  | cons c l ih =>
      have hc : isLineBreak c = false := hl c (by simp)
      have hn : ¬c = '\n' := by
        intro h; rw [h] at hc; simp [isLineBreak] at hc
      have e : splitStep ⟨acc, some p, false⟩ c = ⟨acc, some (p ++ [c]), false⟩ := by
        simp [splitStep, hn, hc]
      rw [List.foldl_cons, e, ih (fun d hd => hl d (by simp [hd]))]
      simp

theorem foldl_splitStep_noBreak_none {l : List Char} (hl : NoBreak l)
    (hne : l ≠ []) (acc : List (List Char)) :
    l.foldl splitStep ⟨acc, none, false⟩ = ⟨acc, some l, false⟩ := by
  rcases l with _ | ⟨c, l⟩
  · exact absurd rfl hne
  · have hc : isLineBreak c = false := hl c (by simp)
    have hn : ¬c = '\n' := by
      intro h; rw [h] at hc; simp [isLineBreak] at hc
    have e : splitStep ⟨acc, none, false⟩ c = ⟨acc, some [c], false⟩ := by
      simp [splitStep, hn, hc]
    rw [List.foldl_cons, e,
      foldl_splitStep_noBreak_some (fun d hd => hl d (by simp [hd]))]
    simp

theorem splitFinish_foldl_joinNL (L : List (List Char))
    (hL : ∀ l ∈ L, NoBreak l ∧ l ≠ []) (acc : List (List Char)) :
    splitFinish ((joinNL L).foldl splitStep ⟨acc, none, false⟩) = acc ++ L := by
  induction L generalizing acc with
  | nil => simp [joinNL, splitFinish]
  | cons l L ih =>
      rcases L with _ | ⟨l', L'⟩
      · obtain ⟨hnb, hne⟩ := hL l (by simp)
        rw [show joinNL [l] = l from rfl, foldl_splitStep_noBreak_none hnb hne]
        rfl
      · obtain ⟨hnb, hne⟩ := hL l (by simp)
        have hL' : ∀ m ∈ l' :: L', NoBreak m ∧ m ≠ [] :=
          fun m hm => hL m (by simp [hm])
        rw [show joinNL (l :: l' :: L') = l ++ '\n' :: joinNL (l' :: L') from rfl,
          List.foldl_append, foldl_splitStep_noBreak_none hnb hne, List.foldl_cons,
          show splitStep ⟨acc, some l, false⟩ '\n' = ⟨acc ++ [l], none, false⟩ from by
            simp [splitStep],
          ih hL' (acc ++ [l]), List.append_assoc]
        rfl

theorem splitlines_joinNL {L : List (List Char)}
    (hL : ∀ l ∈ L, NoBreak l ∧ l ≠ []) : splitlines (joinNL L) = L := by
  have := splitFinish_foldl_joinNL L hL []
  simpa [splitlines, initSt] using this

theorem mem_normalize_output {l : List Char} {x : List Char}
    (h : l ∈ normalize_output x) :
    pyStrip l = l ∧ l ≠ [] ∧ NoBreak l := by
  rw [normalize_output] at h
  obtain ⟨hmem, hne⟩ := List.mem_filter.mp h
  obtain ⟨m, hm, hml⟩ := List.mem_map.mp hmem
  refine ⟨?_, ?_, ?_⟩
  · rw [← hml, pyStrip_idem]
  · intro hnil
    rw [hnil] at hne
    simp at hne
  · intro c hc
    rw [← hml] at hc
    exact splitlines_noBreak (pyStrip x) m hm c (mem_pyStrip hc)

theorem normalize_output_joinNL (x : List Char) :
    normalize_output (joinNL (normalize_output x)) = normalize_output x := by
  have hL : ∀ l ∈ normalize_output x, NoBreak l ∧ l ≠ [] := by
    intro l hl
    obtain ⟨-, hne, hnb⟩ := mem_normalize_output hl
    exact ⟨hnb, hne⟩
  rw [normalize_output_eq_normalizeSpec]
  show normLines (splitlines (joinNL (normalize_output x))) = normalize_output x
  rw [splitlines_joinNL hL]
  have hmap : (normalize_output x).map pyStrip = normalize_output x := by
    conv_rhs => rw [← List.map_id (normalize_output x)]
    exact List.map_congr_left fun l hl => (mem_normalize_output hl).1
  show ((normalize_output x).map pyStrip).filter (fun l => !l.isEmpty) = _
  rw [hmap]
  rw [List.filter_eq_self.mpr]
  intro l hl
  have := (mem_normalize_output hl).2.1
  simpa [List.isEmpty_iff] using this

end Grademe

namespace Grademe

example : splitlines ("a\nb".data) = [("a".data), ("b".data)] := by decide
example : splitlines ("a\r\nb".data) = [("a".data), ("b".data)] := by decide
example : splitlines ("\n".data) = [("".data)] := by decide
example : splitlines ("".data) = [] := by decide
example : splitlines ("a\n\rb".data) = [("a".data), ("".data), ("b".data)] := by decide
example : normalize_output ("a\n   \nb  \n".data) = [("a".data), ("b".data)] := by decide
example : pyStrip ("  a b ".data) = ("a b".data) := by decide

end Grademe

namespace Grademe

theorem run_and_check_none (res : RunResult) (subj ts : List Char) :
    run_and_check res none subj ts =
      ⟨if (pyStrip res.stdout).isEmpty then ("[no output]".data)
        else pyStrip res.stdout,
        if res.stderr.isEmpty then none else some res.stderr, none, none⟩ := rfl

theorem run_and_check_some (res : RunResult) (exp subj ts : List Char) :
    run_and_check res (some exp) subj ts =
      if normalize_output (pyStrip res.stdout) = normalize_output (pyStrip exp) then
        ⟨if (pyStrip res.stdout).isEmpty then ("[no output]".data)
          else pyStrip res.stdout,
          if res.stderr.isEmpty then none else some res.stderr,
          some .matched, none⟩
      else
        ⟨if (pyStrip res.stdout).isEmpty then ("[no output]".data)
          else pyStrip res.stdout,
          if res.stderr.isEmpty then none else some res.stderr,
          some (.mismatched (normalize_output (pyStrip exp))
            (normalize_output (pyStrip res.stdout))),
          some ⟨subj ++ ("_trace_".data) ++ ts ++ (".txt".data),
            mismatchTraceContent (normalize_output (pyStrip exp))
              (normalize_output (pyStrip res.stdout))⟩⟩ := rfl

theorem test_subject_noExercises (env : PipelineEnv) (level : List Char)
    (pick : Nat) (ts : List Char) (hex : env.exercises = []) :
    test_subject env level pick ts = ⟨.noExercises, false, false, false, none, []⟩ := by
  rw [test_subject, if_pos (List.isEmpty_iff.mpr hex)]

theorem test_subject_countError (env : PipelineEnv) (level : List Char)
    (pick : Nat) (ts : List Char) (hex : env.exercises ≠ [])
    (hsol : (solution_files env.stagedFiles).length ≠ 1) :
    test_subject env level pick ts =
      ⟨.solutionCountError, false, false, false, none, []⟩ := by
  rw [test_subject, if_neg (fun h => hex (List.isEmpty_iff.mp h)), if_pos hsol]

theorem test_subject_ran (env : PipelineEnv) (level : List Char)
    (pick : Nat) (ts : List Char) (hex : env.exercises ≠ [])
    (hsol : (solution_files env.stagedFiles).length = 1)
    (hcc : env.compileExit = 0) :
    test_subject env level pick ts =
      ⟨.ran, true, true, true,
        some (run_and_check env.run env.expected (subjectName env level pick) ts),
        (run_and_check env.run env.expected (subjectName env level pick) ts).trace.toList⟩ := by
  rw [test_subject, if_neg (fun h => hex (List.isEmpty_iff.mp h)),
    if_neg (fun h => h hsol), if_pos hcc]

theorem test_subject_compileFailed (env : PipelineEnv) (level : List Char)
    (pick : Nat) (ts : List Char) (hex : env.exercises ≠ [])
    (hsol : (solution_files env.stagedFiles).length = 1)
    (hcc : env.compileExit ≠ 0) :
    test_subject env level pick ts =
      ⟨.compileFailed, true, false, false, none,
        [⟨compileTraceName env level pick ts,
          compileTraceContent env.compileStdout env.compileStderr⟩]⟩ := by
  rw [test_subject, if_neg (fun h => hex (List.isEmpty_iff.mp h)),
    if_neg (fun h => h hsol), if_neg hcc]

end Grademe

namespace Grademe

/-- C1: for every input text, the normalizer returns the sequence obtained
by splitting the text on line boundaries, stripping leading and trailing
whitespace from each line, dropping lines that become empty after
stripping, and preserving the order of the remaining lines
(`normalizeSpec`); in particular `"a\n   \nb  \n"` normalizes to
`["a", "b"]`. -/
theorem C1_normalize_splits_strips_drops :
    (∀ t : List Char, normalize_output t = normalizeSpec t) ∧
    normalize_output ("a\n   \nb  \n".data) = [("a".data), ("b".data)] :=
  ⟨normalize_output_eq_normalizeSpec, by decide⟩

/-- C9: normalization is idempotent: rejoining `normalize_output x` into a
text with newline separators and normalizing again yields the same
sequence, preserving order and content. -/
theorem C9_normalize_idempotent :
    ∀ x : List Char,
      normalize_output (joinNL (normalize_output x)) = normalize_output x :=
  normalize_output_joinNL

/-- C7: the workspace reset deletes the files of an existing directory
while keeping the directory itself (a missing directory is a no-op), so a
subsequent listing of a directory that contained files yields zero
files. -/
theorem C7_clear_folder_zero_files :
    clear_folder none = none ∧
    ∀ entries : List Entry, ∃ kept,
      clear_folder (some entries) = some kept ∧
        kept.filter (fun e => e.isFile) = [] := by
  refine ⟨rfl, fun entries => ⟨entries.filter (fun e => !e.isFile), rfl, ?_⟩⟩
  rw [List.filter_eq_nil_iff]
  intro e he
  have h2 := (List.mem_filter.mp he).2
  rw [Bool.not_eq_true'] at h2
  simp [h2]

/-- C10: the Match/Mismatch verdict and the mismatch trace depend only on
the candidate program's stdout and the expected text: two runs with the
same stdout and the same expected file get the same verdict and trace even
when their stderr or exit codes differ. -/
theorem C10_verdict_depends_only_on_stdout (res1 res2 : RunResult)
    (expectedFile : Option (List Char)) (subj ts : List Char)
    (h : res1.stdout = res2.stdout) :
    (run_and_check res1 expectedFile subj ts).verdict =
      (run_and_check res2 expectedFile subj ts).verdict ∧
    (run_and_check res1 expectedFile subj ts).trace =
      (run_and_check res2 expectedFile subj ts).trace := by
  cases expectedFile with
  | none => rw [run_and_check_none, run_and_check_none]; exact ⟨rfl, rfl⟩
  | some exp =>
      rw [run_and_check_some, run_and_check_some, h]
      by_cases hc :
        normalize_output (pyStrip res2.stdout) = normalize_output (pyStrip exp)
      · rw [if_pos hc, if_pos hc]; exact ⟨rfl, rfl⟩
      · rw [if_neg hc, if_neg hc]; exact ⟨rfl, rfl⟩

/-- C10 witness: two concrete runs with equal stdout but different stderr
and exit codes receive the same verdict and trace. -/
theorem C10_verdict_depends_only_on_stdout_witness :
    runQuiet.stdout = runNoisy.stdout ∧
    ((run_and_check runQuiet (some ("ok".data)) ("s".data) ("t".data)).verdict =
      (run_and_check runNoisy (some ("ok".data)) ("s".data) ("t".data)).verdict ∧
    (run_and_check runQuiet (some ("ok".data)) ("s".data) ("t".data)).trace =
      (run_and_check runNoisy (some ("ok".data)) ("s".data) ("t".data)).trace) :=
  ⟨by decide,
    C10_verdict_depends_only_on_stdout runQuiet runNoisy (some ("ok".data))
      ("s".data) ("t".data) (by decide)⟩

/-- C8: a pipeline run that builds successfully but whose exercise has no
expected-output file completes reporting only the (stripped) actual
output: no verdict is issued and no trace file is written. -/
theorem C8_no_expected_no_verdict_no_trace (env : PipelineEnv)
    (level : List Char) (pick : Nat) (ts : List Char)
    (hex : env.exercises ≠ [])
    (hsol : (solution_files env.stagedFiles).length = 1)
    (hcc : env.compileExit = 0) (hnone : env.expected = none) :
    ∃ cr : CheckResult,
      (test_subject env level pick ts).check = some cr ∧
      cr.verdict = none ∧ cr.trace = none ∧
      (test_subject env level pick ts).traces = [] ∧
      (cr.shownOutput = pyStrip env.run.stdout ∨
        (pyStrip env.run.stdout = [] ∧
          cr.shownOutput = ("[no output]".data))) := by
  have hrun := test_subject_ran env level pick ts hex hsol hcc
  rw [hnone, run_and_check_none] at hrun
  rw [hrun]
  refine ⟨_, rfl, rfl, rfl, rfl, ?_⟩
  by_cases hms : (pyStrip env.run.stdout).isEmpty = true
  · exact Or.inr ⟨List.isEmpty_iff.mp hms, by simp [hms]⟩
  · exact Or.inl (by simp [hms])

/-- C8 witness: a concrete successful build with no expected-output file
issues no verdict and writes no trace. -/
theorem C8_no_expected_no_verdict_no_trace_witness :
    envNoExpected.exercises ≠ [] ∧
    (solution_files envNoExpected.stagedFiles).length = 1 ∧
    envNoExpected.compileExit = 0 ∧
    envNoExpected.expected = none ∧
    (test_subject envNoExpected ("level1".data) 0 ("ts0".data)).traces = [] := by
  refine ⟨by decide, by decide, by decide, by decide, ?_⟩
  obtain ⟨cr, -, -, -, h4, -⟩ :=
    C8_no_expected_no_verdict_no_trace envNoExpected ("level1".data) 0
      ("ts0".data) (by decide) (by decide) (by decide) (by decide)
  exact h4

end Grademe

namespace Grademe

/-- C2: when an expected-output file exists (and the run reaches the
comparison), a mismatch trace is written iff the normalized actual output
differs from the normalized expected output; on equality the verdict is
Match and no trace is created; on inequality both normalized sequences are
reported and a trace named `{level}_{exercise}_trace_{timestamp}.txt`
containing both sequences is persisted. -/
theorem C2_mismatch_trace_iff (env : PipelineEnv) (level : List Char)
    (pick : Nat) (ts : List Char) (expText : List Char)
    (hex : env.exercises ≠ [])
    (hsol : (solution_files env.stagedFiles).length = 1)
    (hcc : env.compileExit = 0) (hexp : env.expected = some expText) :
    ((test_subject env level pick ts).traces ≠ [] ↔
      normalize_output env.run.stdout ≠ normalize_output expText) ∧
    ((normalize_output env.run.stdout = normalize_output expText ∧
        ∃ cr, (test_subject env level pick ts).check = some cr ∧
          cr.verdict = some .matched ∧
          (test_subject env level pick ts).traces = []) ∨
      (normalize_output env.run.stdout ≠ normalize_output expText ∧
        ∃ cr tr, (test_subject env level pick ts).check = some cr ∧
          cr.verdict = some (.mismatched (normalize_output expText)
            (normalize_output env.run.stdout)) ∧
          (test_subject env level pick ts).traces = [tr] ∧
          tr.name = subjectName env level pick ++ ("_trace_".data) ++ ts ++
            (".txt".data) ∧
          OccursIn (joinNL (normalize_output expText)) tr.content ∧
          OccursIn (joinNL (normalize_output env.run.stdout)) tr.content)) := by
  have hrun := test_subject_ran env level pick ts hex hsol hcc
  rw [hexp] at hrun
  have hrc := run_and_check_some env.run expText (subjectName env level pick) ts
  rw [normalize_output_pyStrip, normalize_output_pyStrip] at hrc
  by_cases h : normalize_output env.run.stdout = normalize_output expText
  · rw [if_pos h] at hrc
    rw [hrc] at hrun
    rw [hrun]
    refine ⟨⟨fun hne => absurd rfl hne, fun hne => absurd h hne⟩,
      Or.inl ⟨h, _, rfl, rfl, rfl⟩⟩
  · rw [if_neg h] at hrc
    rw [hrc] at hrun
    rw [hrun]
    refine ⟨⟨fun _ => h, fun _ => by simp⟩,
      Or.inr ⟨h, _, _, rfl, rfl, rfl, rfl, ?_, ?_⟩⟩
    · exact ⟨("❌ Output mismatch!\n--- Expected ---\n".data),
        ("\n--- Got ---\n".data) ++ joinNL (normalize_output env.run.stdout) ++
          ("\n".data),
        by simp [mismatchTraceContent, List.append_assoc]⟩
    · exact ⟨("❌ Output mismatch!\n--- Expected ---\n".data) ++
          joinNL (normalize_output expText) ++ ("\n--- Got ---\n".data),
        ("\n".data),
        by simp [mismatchTraceContent, List.append_assoc]⟩

/-- C2 witness: a concrete run whose output mismatches the expected text
writes a mismatch trace. -/
theorem C2_mismatch_trace_iff_witness :
    envMismatch.exercises ≠ [] ∧
    (solution_files envMismatch.stagedFiles).length = 1 ∧
    envMismatch.compileExit = 0 ∧
    envMismatch.expected = some ("World\nHello".data) ∧
    (test_subject envMismatch ("level1".data) 0 ("ts0".data)).traces ≠ [] :=
  ⟨by decide, by decide, by decide, by decide,
    (C2_mismatch_trace_iff envMismatch ("level1".data) 0 ("ts0".data)
      ("World\nHello".data) (by decide) (by decide) (by decide)
      (by decide)).1.mpr (by decide)⟩

/-- C3: a pipeline run whose staging area holds zero or more than one file
with a recognized extension (.c or .cpp) reports a configuration error and
aborts with no compiler invocation and no build artifact; and (for every
run) the compiler is invoked only when exactly one such file is present. -/
theorem C3_solution_count_gate (env : PipelineEnv) (level : List Char)
    (pick : Nat) (ts : List Char)
    (h : (solution_files env.stagedFiles).length ≠ 1) :
    isConfigError (test_subject env level pick ts).outcome = true ∧
    (test_subject env level pick ts).compilerInvoked = false ∧
    (test_subject env level pick ts).artifactBuilt = false ∧
    ∀ (env2 : PipelineEnv) (level2 : List Char) (pick2 : Nat) (ts2 : List Char),
      (test_subject env2 level2 pick2 ts2).compilerInvoked = false ∨
        (solution_files env2.stagedFiles).length = 1 := by
  have hgate : ∀ (env2 : PipelineEnv) (level2 : List Char) (pick2 : Nat)
      (ts2 : List Char),
      (test_subject env2 level2 pick2 ts2).compilerInvoked = false ∨
        (solution_files env2.stagedFiles).length = 1 := by
    intro env2 level2 pick2 ts2
    by_cases hex : env2.exercises = []
    · rw [test_subject_noExercises env2 level2 pick2 ts2 hex]; exact Or.inl rfl
    · by_cases hs : (solution_files env2.stagedFiles).length = 1
      · exact Or.inr hs
      · rw [test_subject_countError env2 level2 pick2 ts2 hex hs]; exact Or.inl rfl
  by_cases hex : env.exercises = []
  · rw [test_subject_noExercises env level pick ts hex]
    exact ⟨rfl, rfl, rfl, hgate⟩
  · rw [test_subject_countError env level pick ts hex h]
    exact ⟨rfl, rfl, rfl, hgate⟩

/-- C3 witness: a concrete staging area with no recognized solution file
yields a configuration error without invoking the compiler. -/
theorem C3_solution_count_gate_witness :
    (solution_files envNoSolution.stagedFiles).length ≠ 1 ∧
    isConfigError (test_subject envNoSolution ("level1".data) 0 ("ts0".data)).outcome
      = true ∧
    (test_subject envNoSolution ("level1".data) 0 ("ts0".data)).compilerInvoked
      = false ∧
    (test_subject envNoSolution ("level1".data) 0 ("ts0".data)).artifactBuilt
      = false := by
  have h := C3_solution_count_gate envNoSolution ("level1".data) 0 ("ts0".data)
    (by decide)
  exact ⟨by decide, h.1, h.2.1, h.2.2.1⟩

/-- C4: a pipeline run whose toolchain exits non-zero persists one trace
record named `{level}_{exercise}_compile_{timestamp}.txt` containing the
toolchain's captured stdout and stderr, and does not execute the candidate
program; and (for every run) execution happens only after a zero toolchain
exit. -/
theorem C4_compile_failure_trace (env : PipelineEnv) (level : List Char)
    (pick : Nat) (ts : List Char) (hex : env.exercises ≠ [])
    (hsol : (solution_files env.stagedFiles).length = 1)
    (hcc : env.compileExit ≠ 0) :
    (∃ tr, (test_subject env level pick ts).traces = [tr] ∧
      tr.name = level ++ ("_".data) ++ env.exercises.getD pick [] ++
        ("_compile_".data) ++ ts ++ (".txt".data) ∧
      OccursIn env.compileStdout tr.content ∧
      OccursIn env.compileStderr tr.content) ∧
    (test_subject env level pick ts).executed = false ∧
    (test_subject env level pick ts).check = none ∧
    ∀ (env2 : PipelineEnv) (level2 : List Char) (pick2 : Nat) (ts2 : List Char),
      (test_subject env2 level2 pick2 ts2).executed = false ∨
        env2.compileExit = 0 := by
  rw [test_subject_compileFailed env level pick ts hex hsol hcc]
  refine ⟨⟨_, rfl, rfl, ?_, ?_⟩, rfl, rfl, ?_⟩
  · exact ⟨("--- Compiler stdout ---\n".data),
      ("\n--- Compiler stderr ---\n".data) ++ env.compileStderr,
      by simp [compileTraceContent, List.append_assoc]⟩
  · exact ⟨("--- Compiler stdout ---\n".data) ++ env.compileStdout ++
        ("\n--- Compiler stderr ---\n".data), [],
      by simp [compileTraceContent, List.append_assoc]⟩
  · intro env2 level2 pick2 ts2
    by_cases hex2 : env2.exercises = []
    · rw [test_subject_noExercises env2 level2 pick2 ts2 hex2]; exact Or.inl rfl
    · by_cases hs2 : (solution_files env2.stagedFiles).length = 1
      · by_cases hc2 : env2.compileExit = 0
        · exact Or.inr hc2
        · rw [test_subject_compileFailed env2 level2 pick2 ts2 hex2 hs2 hc2]
          exact Or.inl rfl
      · rw [test_subject_countError env2 level2 pick2 ts2 hex2 hs2]
        exact Or.inl rfl

/-- C4 witness: a concrete failing compilation does not execute the
candidate program and issues no comparison report. -/
theorem C4_compile_failure_trace_witness :
    envCompileFail.exercises ≠ [] ∧
    (solution_files envCompileFail.stagedFiles).length = 1 ∧
    envCompileFail.compileExit ≠ 0 ∧
    (test_subject envCompileFail ("level2".data) 0 ("ts0".data)).executed
      = false ∧
    (test_subject envCompileFail ("level2".data) 0 ("ts0".data)).check
      = none := by
  have h := C4_compile_failure_trace envCompileFail ("level2".data) 0
    ("ts0".data) (by decide) (by decide) (by decide)
  exact ⟨by decide, by decide, by decide, h.2.1, h.2.2.1⟩

end Grademe

namespace Grademe

/-- C5 counterexample: in version 6, the change-level command `newnew`
taken from the level-selected state moves the session to the
no-level-selected state without clearing any directory, contradicting the
claim that the directories are cleared first. -/
theorem C5_counterexample_v6_newnew_no_clear :
    v6Step [("level1".data)] (.selected ("level1".data)) ("newnew".data) =
      (.choosing, []) ∧
    Action.clearFolder WDir.solutions ∉
      (v6Step [("level1".data)] (.selected ("level1".data)) ("newnew".data)).2 ∧
    Action.clearFolder WDir.traces ∉
      (v6Step [("level1".data)] (.selected ("level1".data)) ("newnew".data)).2 ∧
    Action.clearFolder WDir.build ∉
      (v6Step [("level1".data)] (.selected ("level1".data)) ("newnew".data)).2 := by
  refine ⟨by decide, by decide, by decide, by decide⟩

/-- C5 amended: in version 1 the change-level command (NEW, any letter
case, after stripping) first clears the solutions, traces, and build
directories and then moves the session to NoLevelSelected; in version 6
the change-level command (`newnew`) moves the session to NoLevelSelected
without clearing any directory. -/
theorem C5_change_level_amended (lvl raw1 raw2 : List Char)
    (levels : List (List Char))
    (h1 : pyUpper (pyStrip raw1) = ("NEW".data))
    (h2 : pyLower (pyStrip raw2) = ("newnew".data)) :
    v1Step (.selected lvl) raw1 = (.choosing, clearAll) ∧
    v6Step levels (.selected lvl) raw2 = (.choosing, []) := by
  constructor
  · simp only [v1Step]
    rw [if_neg (fun hx => absurd (h1.symm.trans hx) (by decide)), if_pos h1]
  · simp only [v6Step]
    rw [if_neg (fun hx => absurd (h2.symm.trans hx) (by decide)),
      if_neg (fun hx => absurd (h2.symm.trans hx) (by decide)), if_pos h2]

/-- C5 amended witness: concrete NEW and newnew commands. -/
theorem C5_change_level_amended_witness :
    pyUpper (pyStrip (" New ".data)) = ("NEW".data) ∧
    pyLower (pyStrip ("NewNew".data)) = ("newnew".data) ∧
    (v1Step (.selected ("level1".data)) (" New ".data) = (.choosing, clearAll) ∧
      v6Step [("level1".data)] (.selected ("level1".data)) ("NewNew".data) =
        (.choosing, [])) :=
  ⟨by decide, by decide,
    C5_change_level_amended ("level1".data) (" New ".data) ("NewNew".data)
      [("level1".data)] (by decide) (by decide)⟩

/-- C6 counterexample: in version 1, the unrecognized input `foo` triggers
a pipeline run (any input other than NEW/EXIT is treated as a retest),
contradicting the claim that an unrecognized command causes no pipeline
run in every state of both variants. -/
theorem C6_counterexample_v1_foo_runs_pipeline :
    v1Step (.selected ("subject1".data)) ("foo".data) =
      (.selected ("subject1".data), [.runPipeline ("subject1".data)]) := by
  decide

/-- C6 amended: in version 6, an unrecognized command causes no state
transition and no action (the controller only re-prompts); in version 1,
any input other than EXIT and NEW (case-insensitive, after stripping)
leaves the selected difficulty unchanged but triggers a pipeline run. -/
theorem C6_unrecognized_amended (levels : List (List Char)) (s : SState)
    (lvl raw raw1 : List Char)
    (hun : v6Unrecognized levels s raw = true)
    (h1 : pyUpper (pyStrip raw1) ≠ ("EXIT".data))
    (h2 : pyUpper (pyStrip raw1) ≠ ("NEW".data)) :
    v6Step levels s raw = (s, []) ∧
    v1Step (.selected lvl) raw1 = (.selected lvl, [.runPipeline lvl]) := by
  constructor
  · cases s with
    | terminated => rfl
    | choosing =>
        simp only [v6Unrecognized, Bool.and_eq_true, Bool.not_eq_true'] at hun
        obtain ⟨⟨hA, hB⟩, hC⟩ := hun
        have hA' := beq_eq_false_iff_ne.mp hA
        have hB' : ¬((isDigits (pyLower (pyStrip raw)) &&
            decide (1 ≤ parseNat (pyLower (pyStrip raw))) &&
            decide (parseNat (pyLower (pyStrip raw)) ≤ levels.length)) = true) := by
          rw [hB]; decide
        have hC' : ¬(((levels.map pyLower).contains (pyLower (pyStrip raw)))
            = true) := by
          rw [hC]; decide
        simp only [v6Step]
        rw [if_neg hA', if_neg hB', if_neg hC']
    | selected l =>
        simp only [v6Unrecognized, Bool.and_eq_true, Bool.not_eq_true'] at hun
        obtain ⟨⟨⟨hA, hB⟩, hC⟩, hD⟩ := hun
        simp only [v6Step]
        rw [if_neg (beq_eq_false_iff_ne.mp hA), if_neg (beq_eq_false_iff_ne.mp hB),
          if_neg (beq_eq_false_iff_ne.mp hC), if_neg (beq_eq_false_iff_ne.mp hD)]
  · simp only [v1Step]
    rw [if_neg h1, if_neg h2]

/-- C6 amended witness: concrete unrecognized inputs for both variants. -/
theorem C6_unrecognized_amended_witness :
    v6Unrecognized [("level1".data)] (.selected ("level1".data)) ("foo".data)
      = true ∧
    pyUpper (pyStrip ("bar".data)) ≠ ("EXIT".data) ∧
    pyUpper (pyStrip ("bar".data)) ≠ ("NEW".data) ∧
    (v6Step [("level1".data)] (.selected ("level1".data)) ("foo".data) =
      (.selected ("level1".data), []) ∧
    v1Step (.selected ("level1".data)) ("bar".data) =
      (.selected ("level1".data), [.runPipeline ("level1".data)])) :=
  ⟨by decide, by decide, by decide,
    C6_unrecognized_amended [("level1".data)] (.selected ("level1".data))
      ("level1".data) ("foo".data) ("bar".data) (by decide) (by decide)
      (by decide)⟩

end Grademe
